import Mathlib

/-!
Shallow embedding of the grocery-price-tracker core:
  - `src/scrapers/aldi_scraper.py` — the candidate matcher
    (`find_best_aldi_match`), the search-result producer
    (`scrape_aldi_search`, with page I/O abstracted to its observable
    data flow) and the coordinator (`run_aldi_scraper`, with the
    injected `search`/`write` collaborators made explicit).
  - `src/data/sheets_manager.py` — `SheetsManager.update_price` over an
    explicit tabular sheet state.

Python strings are modelled as Lean `String` / `List Char`; Python
floats as `ℚ` (the matcher only compares absolute differences of small
decimal literals, where float and exact rational arithmetic agree);
raised exceptions as `Except String`.

Subtraction, absolute value and strict comparison on `ℚ` are rendered
by the kernel-computable `ratSub`, `ratAbs` and `ratLtB` below; the
lemmas `ratSub_eq`, `ratAbs_eq` and `ratLtB_iff` prove them equal to
Mathlib's `a - b`, `|a|` and `a < b`, so the theorems can be stated in
the usual order vocabulary while concrete runs evaluate by `decide`.
-/

/-- Subtraction on `ℚ` by cross multiplication (kernel computable). -/
def ratSub (a b : ℚ) : ℚ := mkRat (a.num * b.den - b.num * a.den) (a.den * b.den)

/-- Strict comparison on `ℚ` by cross multiplication (kernel
computable). -/
def ratLtB (a b : ℚ) : Bool := a.num * b.den < b.num * a.den

/-- Absolute value on `ℚ` by sign inspection (kernel computable). -/
def ratAbs (a : ℚ) : ℚ := if a.num < 0 then mkRat (-a.num) a.den else a

/-- ASCII lowercasing of one character, mirroring Python `str.lower`
on the ASCII titles and headers this program handles. -/
def lowerChar (c : Char) : Char := c.toLower

/-- Python `s.lower()` over the characters of a string. -/
def lowerStr (s : List Char) : List Char := s.map lowerChar

/-- Python `s.strip()` (no argument): drop leading and trailing
whitespace. -/
def stripWs (s : List Char) : List Char :=
  ((s.dropWhile Char.isWhitespace).reverse.dropWhile Char.isWhitespace).reverse

/-- `needle` occurs at the start of `hay` (used to implement Python's
substring containment test). -/
def startsWithCL : List Char → List Char → Bool
  | [], _ => true
  | _ :: _, [] => false
  | a :: as, b :: bs => a = b && startsWithCL as bs

/-- Python `needle in hay` for strings: substring containment. -/
def containsSub (needle : List Char) : List Char → Bool
  | [] => needle.isEmpty
  | c :: t => startsWithCL needle (c :: t) || containsSub needle t

/-- The `ALDI_HOME_BRANDS` constant of `aldi_scraper.py`, verbatim. -/
def ALDI_HOME_BRANDS : List String :=
  ["choceur", "westacre", "blackstone", "mamia", "bakers life",
   "farmdale", "remano", "dairy fine", "logix", "trimat", "cowbelle",
   "emporium selection", "brooklea", "yoguri", "bramwells",
   "goldenvale", "imperial grain", "asia green garden", "sprinters",
   "belmont", "knoppers", "nutoka",
   "broad oak frams", "berg", "ironbark", "ocean rise", "tandil",
   "di-san", "power force", "confidence", "just organic"]

/-- The first match of the regex `(\d+(?:\.\d+)?)` in a character list:
scan left to right for the first digit; take the maximal digit run as
the integer part; if a dot followed by a digit comes next, take the
maximal digit run after the dot as the fractional part.  Returns
`(integer digits, fractional digits)`, or `none` when the text holds
no digit. -/
def firstSizeToken : List Char → Option (List Char × List Char)
  | [] => none
  | c :: cs =>
    if c.isDigit then
      let intPart := (c :: cs).takeWhile Char.isDigit
      let rest := (c :: cs).dropWhile Char.isDigit
      match rest with
      | '.' :: r2 =>
        match r2 with
        | d :: _ =>
          if d.isDigit then some (intPart, r2.takeWhile Char.isDigit)
          else some (intPart, [])
        | [] => some (intPart, [])
      | _ => some (intPart, [])
    else firstSizeToken cs

/-- Decimal value of a digit run. -/
def digitsToNat (ds : List Char) : ℕ :=
  ds.foldl (fun n c => 10 * n + (c.toNat - 48)) 0

/-- Value of a numeric token `(integer digits, fractional digits)` as
a rational, mirroring Python `float(sizes[0])` on regex output:
`int.frac` has the exact value `(int * 10^len(frac) + frac) / 10^len(frac)`. -/
def tokenVal (p : List Char × List Char) : ℚ :=
  mkRat (digitsToNat p.1 * 10 ^ p.2.length + digitsToNat p.2) (10 ^ p.2.length)

/-- The size `find_best_aldi_match` extracts from a candidate title:
the value of the first numeric token of the lowercased title
(`re.findall(r'(\d+(?:\.\d+)?)', res['title'].lower())` then
`float(sizes[0])`), or `none` when no token exists. -/
def titleSize (title : String) : Option ℚ :=
  (firstSizeToken (lowerStr title.data)).map tokenVal

/-- `any(brand.lower() in title_lower for brand in ALDI_HOME_BRANDS)`. -/
def anyHomeBrand (titleLower : List Char) : Bool :=
  ALDI_HOME_BRANDS.any (fun b => containsSub (lowerStr b.data) titleLower)

/-- The brand filter branch of `find_best_aldi_match`: a candidate is
discarded only when `brand_type == 'Home Brand'` and no home-brand
name occurs in its lowercased title; `'Specific'` (and any other
value) applies no filter. -/
def brandFilterPasses (brandType : String) (titleLower : List Char) : Bool :=
  if brandType = "Home Brand" then anyHomeBrand titleLower else true

/-- One scraped candidate (`{'title': ..., 'price': ...}`). -/
structure SearchResult where
  title : String
  price : ℚ
deriving DecidableEq

/-- A candidate takes part in selection iff its title has an
extractable numeric token and it passes the active brand filter:
exactly the two `continue` conditions of the loop body. -/
def survives (brandType : String) (r : SearchResult) : Bool :=
  (titleSize r.title).isSome && brandFilterPasses brandType (lowerStr r.title.data)

/-- `abs(res_size - target_size)` for a candidate (meaningful when the
candidate has an extractable size). -/
def sizeDiff (targetSize : ℚ) (r : SearchResult) : ℚ :=
  ratAbs (ratSub ((titleSize r.title).getD 0) targetSize)

/-- One iteration of the `for res in results` loop of
`find_best_aldi_match`: the accumulator is `none` while
`best_match is None` (equivalently `min_diff == inf`), and
`some (best, min_diff)` afterwards; the candidate is skipped when it
has no size token or fails the brand filter, and replaces the best
exactly when its difference is strictly smaller. -/
def fbStep (targetSize : ℚ) (brandType : String)
    (acc : Option (SearchResult × ℚ)) (res : SearchResult) :
    Option (SearchResult × ℚ) :=
  match titleSize res.title with
  | none => acc
  | some sz =>
    if brandFilterPasses brandType (lowerStr res.title.data) then
      let diff := ratAbs (ratSub sz targetSize)
      match acc with
      | none => some (res, diff)
      | some (b, m) => if ratLtB diff m then some (res, diff) else some (b, m)
    else acc

/-- `find_best_aldi_match(results, target_size, brand_type)` from
`aldi_scraper.py`. -/
def find_best_aldi_match (results : List SearchResult) (targetSize : ℚ)
    (brandType : String) : Option SearchResult :=
  (results.foldl (fbStep targetSize brandType) none).map Prod.fst

/-- Loop invariant of `find_best_aldi_match`: after folding the loop
body over `l`, the accumulator is `none` exactly when no candidate of
`l` survives, and otherwise holds a surviving candidate of `l` whose
difference is minimal among survivors, every strictly earlier survivor
having a strictly larger difference (first occurrence wins ties). -/
def FBInv (t : ℚ) (bt : String) (l : List SearchResult) :
    Option (SearchResult × ℚ) → Prop
  | none => ∀ r ∈ l, survives bt r = false
  | some (b, m) => m = sizeDiff t b ∧ survives bt b = true ∧
      ∃ i, l.get? i = some b ∧
        (∀ j r', l.get? j = some r' → survives bt r' = true → m ≤ sizeDiff t r') ∧
        (∀ j, j < i → ∀ r', l.get? j = some r' → survives bt r' = true →
          m < sizeDiff t r')

/-- Candidate list of the scenario used to witness the minimization
claim: two home-brand bars of sizes 500 and 250 against target 300. -/
def choceurBars : List SearchResult :=
  [⟨"500g Choceur Bar", 5⟩, ⟨"250g Choceur Bar", 3⟩]

/-- One row of the `Products_Master` catalog as consumed by
`run_aldi_scraper`: `Product_Name`, `Search_Keyword_Aldi`, `Size`,
`Brand_Type`. -/
structure CatalogEntry where
  productName : String
  keyword : String
  size : ℚ
  brandType : String
deriving DecidableEq

/-- The observable per-entry status of one iteration of the
coordinator loop (each entry takes exactly one of these paths and
prints the corresponding status line). -/
inductive Outcome where
  | skippedEmptyKeyword
  | noResults
  | noMatch
  | updated (price : ℚ)
  | failed (msg : String)
deriving DecidableEq

/-- The path taken by the body of the `for i, prod in enumerate(...)`
loop of `run_aldi_scraper` for one entry: empty keyword is skipped
before the `try` block; inside the `try`, a raising `search` or
`write` is caught and the entry fails; a successful empty search is
the no-results path; a `None` match is the no-match path; otherwise
the price is written. -/
def entryOutcome (search : String → Except String (List SearchResult))
    (write : String → ℚ → Except String Unit) (e : CatalogEntry) : Outcome :=
  if e.keyword = "" then .skippedEmptyKeyword
  else
    match search e.keyword with
    | .error msg => .failed msg
    | .ok results =>
      if results.isEmpty then .noResults
      else
        match find_best_aldi_match results e.size e.brandType with
        | some best =>
          match write e.productName best.price with
          | .ok _ => .updated best.price
          | .error msg => .failed msg
        | none => .noMatch

/-- The `search` invocations made for one entry: the coordinator calls
`scrape_aldi_search(page, keyword)` exactly once per entry with a
non-empty keyword, and not at all for an empty keyword. -/
def entrySearched (e : CatalogEntry) : List String :=
  if e.keyword = "" then [] else [e.keyword]

/-- `True` exactly for the outcome of a successful price write. -/
def isUpdatedOutcome : Outcome → Bool
  | .updated _ => true
  | _ => false

/-- `True` exactly for a caught per-entry failure. -/
def isFailedOutcome : Outcome → Bool
  | .failed _ => true
  | _ => false

/-- The observable result of one coordinator pass: the per-entry
outcomes and search-call trace (modelling the per-entry status lines
and `scrape_aldi_search` calls), plus the two counters the code keeps:
`processed_count` (incremented after the `try` block, so for every
entry with a non-empty keyword, failures included) and `updated_count`
(incremented only after a successful `update_price`). -/
structure RunReport where
  outcomes : List Outcome
  searched : List String
  processed : ℕ
  updated : ℕ
deriving DecidableEq

/-- One iteration of the coordinator loop over the report state. -/
def runStep (search : String → Except String (List SearchResult))
    (write : String → ℚ → Except String Unit) (rep : RunReport)
    (e : CatalogEntry) : RunReport :=
  { outcomes := rep.outcomes ++ [entryOutcome search write e]
    searched := rep.searched ++ entrySearched e
    processed := rep.processed + (if e.keyword = "" then 0 else 1)
    updated := rep.updated +
      (if isUpdatedOutcome (entryOutcome search write e) then 1 else 0) }

/-- `run_aldi_scraper` from `aldi_scraper.py`, with the catalog read
and the `search`/`write` collaborators injected: iterate the catalog
in order, one outcome per entry, accumulating the two counters. -/
def run_aldi_scraper (catalog : List CatalogEntry)
    (search : String → Except String (List SearchResult))
    (write : String → ℚ → Except String Unit) : RunReport :=
  catalog.foldl (runStep search write) ⟨[], [], 0, 0⟩

/-- Whether an entry reaches the body of the `try` block (non-empty
keyword). -/
def hasKeyword (e : CatalogEntry) : Bool := !(e.keyword == "")

/-- The raw text extracted from one `.product-tile` element by
`scrape_aldi_search`: the `.product-name` inner text and the `.price`
inner text (empty strings when the sub-elements are missing). -/
structure RawTile where
  title : String
  priceText : String
deriving DecidableEq

/-- Python `s.strip('$')`: drop leading and trailing dollar signs. -/
def stripDollar (s : List Char) : List Char :=
  ((s.dropWhile (fun c => c = '$')).reverse.dropWhile (fun c => c = '$')).reverse

/-- Python `s.replace(',', '')`: drop every comma. -/
def removeCommas (s : List Char) : List Char := s.filter (fun c => !(c = ','))

/-- Python `price_clean.replace('.', '').isdigit()`: after removing
dots, the text is non-empty and all digits. -/
def priceDigitCheck (s : List Char) : Bool :=
  let t := s.filter (fun c => !(c = '.'))
  !t.isEmpty && t.all Char.isDigit

/-- Number of dots in the cleaned price text: `float()` accepts the
digit-and-dot text exactly when it has at most one dot. -/
def dotCount (s : List Char) : ℕ := s.countP (fun c => c = '.')

/-- Value of a digits-with-at-most-one-dot literal, as Python `float`
parses it. -/
def floatOfClean (s : List Char) : ℚ :=
  let ip := s.takeWhile (fun c => !(c = '.'))
  let fp := (s.dropWhile (fun c => !(c = '.'))).drop 1
  mkRat (digitsToNat ip * 10 ^ fp.length + digitsToNat fp) (10 ^ fp.length)

/-- The price parsing of one tile in `scrape_aldi_search`:
`price_clean = price_str.strip('$').replace(',', '')`, then
`price = float(price_clean) if price_clean.replace('.', '').isdigit()
else 0.0`.  When the digit check passes but `float()` still raises
(two or more dots), the per-element `except` catches the error and the
tile is dropped — modelled as `none`; every other tile is kept, with
an unparsable price coerced to `0.0`. -/
def parsePrice (priceText : String) : Option ℚ :=
  let clean := removeCommas (stripDollar priceText.data)
  if priceDigitCheck clean then
    if dotCount clean ≤ 1 then some (floatOfClean clean) else none
  else some 0

/-- One iteration of the tile loop of `scrape_aldi_search`. -/
def parseTile (tile : RawTile) : Option SearchResult :=
  (parsePrice tile.priceText).map (fun p => ⟨tile.title, p⟩)

/-- `scrape_aldi_search` from `aldi_scraper.py`, with the page I/O
abstracted to its observable data flow: when the page load or the
selector wait raises, the caught exception yields `[]`; otherwise the
first five tiles are parsed, dropping only the tiles whose parsing
raised. -/
def scrape_aldi_search (loadFailed : Bool) (tiles : List RawTile) :
    List SearchResult :=
  if loadFailed then [] else (tiles.take 5).filterMap parseTile

/-- `SheetsManager._norm`: `str(s).strip().lower()`. -/
def pynorm (s : String) : String := ⟨lowerStr (stripWs s.data)⟩

/-- `SheetsManager._get_header_map` followed by `.get(key)`: the
1-based column index of the last header cell whose normalization
equals `key` (the dict comprehension lets later duplicates win), or
`none` when no header matches. -/
def headerIndex (headers : List String) (key : String) : Option ℕ :=
  (List.range headers.length).foldl
    (fun acc i => if pynorm (headers.getD i "") = key then some (i + 1) else acc)
    none

/-- The cell of a row at a 1-based column index (missing trailing
cells read as empty, as `gspread` pads). -/
def cellAt (row : List String) (col1 : ℕ) : String := row.getD (col1 - 1) ""

/-- The `store_to_colname` dict of `update_price`. -/
def storePriceColumn (storeKey : String) : Option String :=
  if storeKey = "woolworths" then some "Woolworths_Price"
  else if storeKey = "coles" then some "Coles_Price"
  else if storeKey = "aldi" then some "Aldi_Price"
  else none

/-- The worksheet state: the header row (row 1) and the data rows
(rows 2..). -/
structure Sheet where
  headers : List String
  rows : List (List String)
deriving DecidableEq

/-- Write `v` into a row at a 1-based column, padding the row with
empty cells if needed. -/
def setCellRow (row : List String) (col1 : ℕ) (v : String) : List String :=
  (row ++ List.replicate (col1 - row.length) "").set (col1 - 1) v

/-- Apply `f` to the data row at 0-based index `n`. -/
def updateRowAt : ℕ → (List String → List String) →
    List (List String) → List (List String)
  | _, _, [] => []
  | 0, f, r :: rs => f r :: rs
  | n + 1, f, r :: rs => r :: updateRowAt n f rs

/-- The column index of `Product_Name` in a sheet, when present. -/
def productColOf (sheet : Sheet) : Option ℕ :=
  headerIndex sheet.headers (pynorm "Product_Name")

/-- `SheetsManager.update_price(product_name, store_name, new_price)`
from `sheets_manager.py`, over an explicit sheet state (`nowIso`
stands for the `_now_iso_utc()` timestamp).  The checks run in source
order: empty header row, `Product_Name` column, `Last_Updated` column,
store-name validation, the store's price column, then the scan of the
`Product_Name` column for the first row whose normalized cell equals
the normalized product name; only after all of them does the single
batch update write the price cell and the timestamp cell of that
row. -/
def update_price (sheet : Sheet) (productName storeName newPrice nowIso : String) :
    Except String Sheet :=
  if sheet.headers.isEmpty then .error "Header row (row 1) is empty."
  else
    match headerIndex sheet.headers (pynorm "Product_Name") with
    | none => .error "Column Product_Name not found."
    | some productCol =>
      match headerIndex sheet.headers (pynorm "Last_Updated") with
      | none => .error "Column Last_Updated not found."
      | some lastUpdatedCol =>
        match storePriceColumn (pynorm storeName) with
        | none => .error "store_name must be one of: woolworths, coles, aldi"
        | some priceColName =>
          match headerIndex sheet.headers (pynorm priceColName) with
          | none => .error "price column not found"
          | some priceCol =>
            match sheet.rows.findIdx?
                (fun r => pynorm (cellAt r productCol) == pynorm productName) with
            | none => .error "Product not found in Product_Name column."
            | some i =>
              .ok ⟨sheet.headers,
                updateRowAt i
                  (fun r => setCellRow (setCellRow r priceCol newPrice)
                    lastUpdatedCol nowIso)
                  sheet.rows⟩

theorem ratSub_eq (a b : ℚ) : ratSub a b = a - b := by
  unfold ratSub
  have ha : ((a.den : ℚ)) ≠ 0 := by exact_mod_cast a.den_ne_zero
  have hb : ((b.den : ℚ)) ≠ 0 := by exact_mod_cast b.den_ne_zero
  rw [Rat.mkRat_eq_divInt, Rat.divInt_eq_div]
  conv_rhs => rw [← Rat.num_div_den a, ← Rat.num_div_den b]
  rw [div_sub_div _ _ ha hb]
  push_cast
  ring_nf

theorem ratLtB_iff (a b : ℚ) : ratLtB a b = true ↔ a < b := by
  unfold ratLtB
  rw [decide_eq_true_eq]
  have ha : ((0 : ℚ)) < (a.den : ℚ) := by exact_mod_cast a.pos
  have hb : ((0 : ℚ)) < (b.den : ℚ) := by exact_mod_cast b.pos
  constructor
  · intro h
    rw [← Rat.num_div_den a, ← Rat.num_div_den b, div_lt_div_iff₀ ha hb]
    exact_mod_cast h
  · intro h
    rw [← Rat.num_div_den a, ← Rat.num_div_den b, div_lt_div_iff₀ ha hb] at h
    exact_mod_cast h

theorem ratAbs_eq (a : ℚ) : ratAbs a = |a| := by
  unfold ratAbs
  split
  · rw [Rat.mkRat_eq_divInt, Rat.divInt_eq_div]
    push_cast
    rw [neg_div, Rat.num_div_den, abs_of_neg]
    exact Rat.num_neg.mp (by assumption)
  · rw [abs_of_nonneg]
    exact Rat.num_nonneg.mp (by omega)

theorem sizeDiff_eq_abs (targetSize : ℚ) (r : SearchResult) :
    sizeDiff targetSize r = |(titleSize r.title).getD 0 - targetSize| := by
  rw [sizeDiff, ratSub_eq, ratAbs_eq]

theorem fbStep_skip (t : ℚ) (bt : String) (acc : Option (SearchResult × ℚ))
    (r : SearchResult) (h : survives bt r = false) : fbStep t bt acc r = acc := by
  unfold survives at h
  cases hts : titleSize r.title with
  | none => simp [fbStep, hts]
  | some sz =>
    rw [hts] at h
    simp only [Option.isSome_some, Bool.true_and] at h
    simp [fbStep, hts, h]

theorem fbStep_surv (t : ℚ) (bt : String) (acc : Option (SearchResult × ℚ))
    (r : SearchResult) (h : survives bt r = true) :
    fbStep t bt acc r =
      match acc with
      | none => some (r, sizeDiff t r)
      | some (b, m) =>
        if ratLtB (sizeDiff t r) m then some (r, sizeDiff t r) else some (b, m) := by
  unfold survives at h
  rw [Bool.and_eq_true] at h
  obtain ⟨hsome, hbf⟩ := h
  rw [Option.isSome_iff_exists] at hsome
  obtain ⟨sz, hts⟩ := hsome
  have hsd : sizeDiff t r = ratAbs (ratSub sz t) := by
    unfold sizeDiff
    rw [hts]
    rfl
  simp [fbStep, hts, hbf, hsd]

theorem get_concat_cases {α : Type} (l : List α) (a : α) (j : ℕ) (x : α)
    (h : (l ++ [a]).get? j = some x) :
    (j < l.length ∧ l.get? j = some x) ∨ (j = l.length ∧ x = a) := by
  have hj : j < l.length + 1 := by
    have := List.get?_eq_some.mp h
    obtain ⟨hb, _⟩ := this
    simpa using hb
  rcases Nat.lt_succ_iff_lt_or_eq.mp hj with hlt | heq
  · left
    refine ⟨hlt, ?_⟩
    rw [← h, List.get?_append hlt]
  · right
    refine ⟨heq, ?_⟩
    rw [heq] at h
    rw [List.get?_concat_length] at h
    exact (Option.some.injEq _ _ ▸ h).symm

theorem fb_foldl_inv (t : ℚ) (bt : String) (l : List SearchResult) :
    FBInv t bt l (l.foldl (fbStep t bt) none) := by
  induction l using List.reverseRecOn with
  | nil =>
    intro r hr
    cases hr
  | append_singleton l r ih =>
    rw [List.foldl_append, List.foldl_cons, List.foldl_nil]
    by_cases hs : survives bt r = true
    · rw [fbStep_surv t bt _ r hs]
      cases ho : l.foldl (fbStep t bt) none with
      | none =>
        rw [ho] at ih
        refine ⟨rfl, hs, l.length, List.get?_concat_length l r, ?_, ?_⟩
        · intro j r' hj hs'
          rcases get_concat_cases l r j r' hj with ⟨_, hget⟩ | ⟨_, rfl⟩
          · exact absurd hs' (by simp [ih r' (List.get?_mem hget)])
          · exact le_refl _
        · intro j hji r' hj hs'
          have hjl : j < l.length := hji
          rw [List.get?_append hjl] at hj
          exact absurd hs' (by simp [ih r' (List.get?_mem hj)])
      | some bm =>
        obtain ⟨b, m⟩ := bm
        rw [ho] at ih
        obtain ⟨hm, hsb, i, hi, hmin, hfirst⟩ := ih
        have hil : i < l.length := (List.get?_eq_some.mp hi).1
        show FBInv t bt (l ++ [r])
          (if ratLtB (sizeDiff t r) m then some (r, sizeDiff t r) else some (b, m))
        by_cases hlt : ratLtB (sizeDiff t r) m = true
        · rw [if_pos hlt]
          have hdm : sizeDiff t r < m := (ratLtB_iff _ _).mp hlt
          refine ⟨rfl, hs, l.length, List.get?_concat_length l r, ?_, ?_⟩
          · intro j r' hj hs'
            rcases get_concat_cases l r j r' hj with ⟨_, hget⟩ | ⟨_, rfl⟩
            · exact le_of_lt (lt_of_lt_of_le hdm (hmin j r' hget hs'))
            · exact le_refl _
          · intro j hji r' hj hs'
            have hjl : j < l.length := hji
            rw [List.get?_append hjl] at hj
            exact lt_of_lt_of_le hdm (hmin j r' hj hs')
        · rw [if_neg (by simp [hlt])]
          have hmd : m ≤ sizeDiff t r := by
            have := (ratLtB_iff (sizeDiff t r) m).not.mp (by simp [hlt])
            exact not_lt.mp this
          refine ⟨hm, hsb, i, ?_, ?_, ?_⟩
          · rw [List.get?_append hil]
            exact hi
          · intro j r' hj hs'
            rcases get_concat_cases l r j r' hj with ⟨_, hget⟩ | ⟨_, rfl⟩
            · exact hmin j r' hget hs'
            · exact hmd
          · intro j hji r' hj hs'
            have hjl : j < l.length := lt_trans hji hil
            rw [List.get?_append hjl] at hj
            exact hfirst j hji r' hj hs'
    · rw [fbStep_skip t bt _ r (by simp [hs])]
      cases ho : l.foldl (fbStep t bt) none with
      | none =>
        rw [ho] at ih
        intro r' hr'
        rcases List.mem_append.mp hr' with hl | hr1
        · exact ih r' hl
        · rcases List.mem_singleton.mp hr1 with rfl
          simp [hs]
      | some bm =>
        obtain ⟨b, m⟩ := bm
        rw [ho] at ih
        obtain ⟨hm, hsb, i, hi, hmin, hfirst⟩ := ih
        have hil : i < l.length := (List.get?_eq_some.mp hi).1
        refine ⟨hm, hsb, i, ?_, ?_, ?_⟩
        · rw [List.get?_append hil]
          exact hi
        · intro j r' hj hs'
          rcases get_concat_cases l r j r' hj with ⟨_, hget⟩ | ⟨_, rfl⟩
          · exact hmin j r' hget hs'
          · exact absurd hs' (by simp [hs])
        · intro j hji r' hj hs'
          have hjl : j < l.length := lt_trans hji hil
          rw [List.get?_append hjl] at hj
          exact hfirst j hji r' hj hs'

/-- Claim C1: for every candidate list containing at least one
candidate that has an extractable size token and passes the active
brand filter, `find_best_aldi_match` returns a candidate of the list
minimizing `abs(extracted_size - target_size)` among all surviving
candidates, and every surviving candidate occurring strictly earlier
than the returned one has a strictly larger difference, so equal
differences are resolved in favour of the first occurrence. -/
theorem select_best_minimizes (results : List SearchResult) (t : ℚ) (bt : String)
    (h : ∃ r ∈ results, survives bt r = true) :
    ∃ i r, results.get? i = some r ∧
      find_best_aldi_match results t bt = some r ∧
      survives bt r = true ∧
      (∀ j r', results.get? j = some r' → survives bt r' = true →
        sizeDiff t r ≤ sizeDiff t r') ∧
      (∀ j, j < i → ∀ r', results.get? j = some r' → survives bt r' = true →
        sizeDiff t r < sizeDiff t r') := by
  have hinv := fb_foldl_inv t bt results
  cases ho : results.foldl (fbStep t bt) none with
  | none =>
    rw [ho] at hinv
    obtain ⟨r, hr, hsr⟩ := h
    exact absurd hsr (by simp [hinv r hr])
  | some bm =>
    obtain ⟨b, m⟩ := bm
    rw [ho] at hinv
    obtain ⟨hm, hsb, i, hi, hmin, hfirst⟩ := hinv
    refine ⟨i, b, hi, ?_, hsb, ?_, ?_⟩
    · unfold find_best_aldi_match
      rw [ho]
      rfl
    · intro j r' hj hs'
      have := hmin j r' hj hs'
      rwa [hm] at this
    · intro j hji r' hj hs'
      have := hfirst j hji r' hj hs'
      rwa [hm] at this

theorem select_best_minimizes_witness :
    ∃ i r, choceurBars.get? i = some r ∧
      find_best_aldi_match choceurBars 300 "Home Brand" = some r ∧
      survives "Home Brand" r = true ∧
      (∀ j r', choceurBars.get? j = some r' → survives "Home Brand" r' = true →
        sizeDiff 300 r ≤ sizeDiff 300 r') ∧
      (∀ j, j < i → ∀ r', choceurBars.get? j = some r' →
        survives "Home Brand" r' = true → sizeDiff 300 r < sizeDiff 300 r') :=
  select_best_minimizes choceurBars 300 "Home Brand"
    ⟨⟨"500g Choceur Bar", 5⟩, by decide, by decide⟩

/-- Claim C2: whenever `find_best_aldi_match` returns a candidate, that
candidate is an element of the input list and passes the active brand
filter; in particular for `brand_type == 'Home Brand'` its lowercased
title contains at least one configured home-brand name. -/
theorem select_best_from_input_and_filtered (results : List SearchResult)
    (t : ℚ) (bt : String) (r : SearchResult)
    (h : find_best_aldi_match results t bt = some r) :
    r ∈ results ∧ brandFilterPasses bt (lowerStr r.title.data) = true ∧
      (bt = "Home Brand" → anyHomeBrand (lowerStr r.title.data) = true) := by
  have hinv := fb_foldl_inv t bt results
  unfold find_best_aldi_match at h
  cases ho : results.foldl (fbStep t bt) none with
  | none =>
    rw [ho] at h
    cases h
  | some bm =>
    obtain ⟨b, m⟩ := bm
    rw [ho] at h
    have hbr : b = r := by
      simpa using h
    subst hbr
    rw [ho] at hinv
    obtain ⟨_, hsb, i, hi, _, _⟩ := hinv
    have hbf : brandFilterPasses bt (lowerStr b.title.data) = true := by
      unfold survives at hsb
      rw [Bool.and_eq_true] at hsb
      exact hsb.2
    refine ⟨List.get?_mem hi, hbf, ?_⟩
    intro hbt
    unfold brandFilterPasses at hbf
    rwa [if_pos hbt] at hbf

theorem select_best_from_input_and_filtered_witness :
    (⟨"Farmdale Milk 2L", mkRat 32 10⟩ : SearchResult) ∈
        [(⟨"Farmdale Milk 2L", mkRat 32 10⟩ : SearchResult)] ∧
      brandFilterPasses "Home Brand"
        (lowerStr (SearchResult.mk "Farmdale Milk 2L" (mkRat 32 10)).title.data) = true ∧
      ("Home Brand" = "Home Brand" →
        anyHomeBrand
          (lowerStr (SearchResult.mk "Farmdale Milk 2L" (mkRat 32 10)).title.data) = true) :=
  select_best_from_input_and_filtered
    [⟨"Farmdale Milk 2L", mkRat 32 10⟩] 2 "Home Brand"
    ⟨"Farmdale Milk 2L", mkRat 32 10⟩ (by decide)

/-- Claim C3: the size attributed to a candidate is the value of the
first numeric token of its title — `"2 x 500g"` yields `2`, not `500`
(both in extraction and in selection) — and a candidate whose title
has no numeric token is excluded from selection: deleting it from the
candidate list leaves the result unchanged. -/
theorem first_numeric_token_is_size :
    titleSize "2 x 500g" = some 2 ∧
    (∀ (l1 l2 : List SearchResult) (r : SearchResult) (t : ℚ) (bt : String),
      titleSize r.title = none →
      find_best_aldi_match (l1 ++ r :: l2) t bt =
        find_best_aldi_match (l1 ++ l2) t bt) ∧
    find_best_aldi_match
      [⟨"2 x 500g block", 5⟩, ⟨"450g block", 6⟩] 500 "Specific"
      = some ⟨"450g block", 6⟩ := by
  refine ⟨by decide, ?_, by decide⟩
  intro l1 l2 r t bt hnone
  have hs : survives bt r = false := by
    unfold survives
    rw [hnone]
    rfl
  unfold find_best_aldi_match
  rw [List.foldl_append, List.foldl_cons, fbStep_skip t bt _ r hs,
    ← List.foldl_append]

theorem first_numeric_token_is_size_witness :
    find_best_aldi_match
        ([] ++ (⟨"no size here", 1⟩ : SearchResult) :: [⟨"x 5", 2⟩]) 5 "Specific"
      = find_best_aldi_match ([] ++ [(⟨"x 5", 2⟩ : SearchResult)]) 5 "Specific" :=
  first_numeric_token_is_size.2.1 [] [⟨"x 5", 2⟩] ⟨"no size here", 1⟩ 5 "Specific"
    (by decide)

/-- Claim C4: on an empty candidate list, and on any list in which no
candidate both has an extractable size token and passes the active
brand filter, `find_best_aldi_match` returns `none`. -/
theorem select_best_no_survivor_none (results : List SearchResult) (t : ℚ)
    (bt : String) (h : ∀ r ∈ results, survives bt r = false) :
    find_best_aldi_match results t bt = none := by
  have hinv := fb_foldl_inv t bt results
  unfold find_best_aldi_match
  cases ho : results.foldl (fbStep t bt) none with
  | none => rfl
  | some bm =>
    obtain ⟨b, m⟩ := bm
    rw [ho] at hinv
    obtain ⟨_, hsb, i, hi, _, _⟩ := hinv
    exact absurd hsb (by simp [h b (List.get?_mem hi)])

theorem select_best_no_survivor_none_witness :
    find_best_aldi_match [⟨"Brand X Milk 1L", mkRat 21 10⟩] 2000 "Home Brand"
      = none :=
  select_best_no_survivor_none [⟨"Brand X Milk 1L", mkRat 21 10⟩] 2000
    "Home Brand" (by decide)

theorem run_foldl_spec (search : String → Except String (List SearchResult))
    (write : String → ℚ → Except String Unit) (catalog : List CatalogEntry)
    (rep : RunReport) :
    catalog.foldl (runStep search write) rep =
      ⟨rep.outcomes ++ catalog.map (entryOutcome search write),
       rep.searched ++ catalog.flatMap entrySearched,
       rep.processed + catalog.countP hasKeyword,
       rep.updated +
         catalog.countP (fun e => isUpdatedOutcome (entryOutcome search write e))⟩ := by
  induction catalog generalizing rep with
  | nil => simp
  | cons e es ih =>
    rw [List.foldl_cons, ih]
    simp only [runStep, List.map_cons, List.flatMap_cons, List.countP_cons,
      RunReport.mk.injEq, List.append_assoc, List.cons_append, List.nil_append]
    refine ⟨by simp, by simp, ?_, ?_⟩
    · by_cases hk : e.keyword = ""
      · simp [hasKeyword, hk]
        try omega
      · simp [hasKeyword, hk]
        try omega
    · by_cases hu : isUpdatedOutcome (entryOutcome search write e) = true
      · simp [hu]
        try omega
      · simp [hu]
        try omega

/-- Closed form of one coordinator pass: outcomes are the per-entry
outcomes in catalog order, the search trace is the per-entry traces
concatenated, `processed_count` counts the entries with a non-empty
keyword and `updated_count` the entries whose write succeeded. -/
theorem run_spec (catalog : List CatalogEntry)
    (search : String → Except String (List SearchResult))
    (write : String → ℚ → Except String Unit) :
    run_aldi_scraper catalog search write =
      ⟨catalog.map (entryOutcome search write),
       catalog.flatMap entrySearched,
       catalog.countP hasKeyword,
       catalog.countP (fun e => isUpdatedOutcome (entryOutcome search write e))⟩ := by
  unfold run_aldi_scraper
  rw [run_foldl_spec]
  simp

/-- Claim C5 (counterexample): the run's totals do not count every
catalog entry — an entry with an empty keyword hits `continue` before
`processed_count += 1`, so it is counted by no total even though the
catalog has one entry. -/
theorem run_totals_miss_empty_keyword_entries :
    (run_aldi_scraper [⟨"Milk 2L", "", 2000, "Home Brand"⟩]
        (fun _ => .ok []) (fun _ _ => .ok ())).processed = 0 ∧
    (run_aldi_scraper [⟨"Milk 2L", "", 2000, "Home Brand"⟩]
        (fun _ => .ok []) (fun _ _ => .ok ())).updated = 0 ∧
    ([(⟨"Milk 2L", "", 2000, "Home Brand"⟩ : CatalogEntry)]).length = 1 := by
  decide

/-- Claim C5 (amended): a run produces exactly one outcome per catalog
entry and `len(outcomes) == len(catalog)`, but the `processed` total
counts only the entries with a non-empty keyword; in the scenario
where `search` raises for the first of two (non-empty-keyword) entries
and succeeds for the second, the run has one failed outcome and
`processed == 2`. -/
theorem run_one_outcome_per_entry :
    (∀ (catalog : List CatalogEntry)
        (search : String → Except String (List SearchResult))
        (write : String → ℚ → Except String Unit),
      (run_aldi_scraper catalog search write).outcomes.length = catalog.length ∧
      (run_aldi_scraper catalog search write).processed = catalog.countP hasKeyword) ∧
    ((run_aldi_scraper
        [⟨"P1", "k1", 2000, "Home Brand"⟩, ⟨"P2", "k2", 2, "Home Brand"⟩]
        (fun k => if k = "k1" then .error "timeout"
                  else .ok [⟨"Farmdale Milk 2", mkRat 32 10⟩])
        (fun _ _ => .ok ())).outcomes.countP isFailedOutcome = 1 ∧
     (run_aldi_scraper
        [⟨"P1", "k1", 2000, "Home Brand"⟩, ⟨"P2", "k2", 2, "Home Brand"⟩]
        (fun k => if k = "k1" then .error "timeout"
                  else .ok [⟨"Farmdale Milk 2", mkRat 32 10⟩])
        (fun _ _ => .ok ())).processed = 2) := by
  refine ⟨?_, by decide, by decide⟩
  intro catalog search write
  rw [run_spec]
  exact ⟨by simp, rfl⟩

/-- Claim C6: an entry whose `search` or `write` call raises is
recorded as `Failed` and the pass continues — every later entry is
processed exactly as it would be on its own, and (the model of) `run`
is a total function, so no per-entry failure escapes it. -/
theorem per_entry_failure_isolated
    (search : String → Except String (List SearchResult))
    (write : String → ℚ → Except String Unit)
    (l1 l2 : List CatalogEntry) (e : CatalogEntry) (msg : String)
    (hk : ¬ e.keyword = "")
    (h : search e.keyword = .error msg ∨
      ∃ rs b, search e.keyword = .ok rs ∧ rs ≠ [] ∧
        find_best_aldi_match rs e.size e.brandType = some b ∧
        write e.productName b.price = .error msg) :
    (run_aldi_scraper (l1 ++ e :: l2) search write).outcomes =
      l1.map (entryOutcome search write) ++
        Outcome.failed msg :: l2.map (entryOutcome search write) := by
  have he : entryOutcome search write e = .failed msg := by
    unfold entryOutcome
    rw [if_neg hk]
    rcases h with hse | ⟨rs, b, hok, hne, hfb, hw⟩
    · rw [hse]
    · have hne' : rs.isEmpty = false := by
        cases rs with
        | nil => exact absurd rfl hne
        | cons a as => rfl
      simp only [hok, hne', Bool.false_eq_true, if_false, hfb, hw]
  rw [run_spec]
  show (l1 ++ e :: l2).map (entryOutcome search write) = _
  rw [List.map_append, List.map_cons, he]

theorem per_entry_failure_isolated_witness :
    (run_aldi_scraper
        ([] ++ (⟨"P", "k", 5, "Specific"⟩ : CatalogEntry) ::
          [⟨"Q", "k2", 5, "Specific"⟩])
        (fun _ => .error "boom") (fun _ _ => .ok ())).outcomes =
      ([] : List CatalogEntry).map
          (entryOutcome (fun _ => .error "boom") (fun _ _ => .ok ())) ++
        Outcome.failed "boom" ::
          [(⟨"Q", "k2", 5, "Specific"⟩ : CatalogEntry)].map
            (entryOutcome (fun _ => .error "boom") (fun _ _ => .ok ())) :=
  per_entry_failure_isolated (fun _ => .error "boom") (fun _ _ => .ok ())
    [] [⟨"Q", "k2", 5, "Specific"⟩] ⟨"P", "k", 5, "Specific"⟩ "boom"
    (by decide) (Or.inl rfl)

/-- Claim C7: for an entry with a non-empty keyword, a raising search
call yields the `Failed` outcome while a successful search returning
the empty list yields the `NoResults` skip outcome, and these two
outcomes are distinct. -/
theorem search_raise_vs_empty_distinct
    (search : String → Except String (List SearchResult))
    (write : String → ℚ → Except String Unit)
    (e : CatalogEntry) (msg : String) (hk : ¬ e.keyword = "") :
    (search e.keyword = .error msg → entryOutcome search write e = .failed msg) ∧
    (search e.keyword = .ok [] → entryOutcome search write e = .noResults) ∧
    Outcome.failed msg ≠ Outcome.noResults := by
  refine ⟨?_, ?_, by simp⟩
  · intro hse
    unfold entryOutcome
    rw [if_neg hk, hse]
  · intro hse
    unfold entryOutcome
    rw [if_neg hk, hse]
    rfl

theorem search_raise_vs_empty_distinct_witness :
    ((fun (_ : String) => (.error "timeout" : Except String (List SearchResult)))
        (CatalogEntry.mk "P" "k" 1 "Specific").keyword = .error "timeout" →
      entryOutcome (fun _ => .error "timeout") (fun _ _ => .ok ())
        ⟨"P", "k", 1, "Specific"⟩ = .failed "timeout") ∧
    ((fun (_ : String) => (.error "timeout" : Except String (List SearchResult)))
        (CatalogEntry.mk "P" "k" 1 "Specific").keyword = .ok [] →
      entryOutcome (fun _ => .error "timeout") (fun _ _ => .ok ())
        ⟨"P", "k", 1, "Specific"⟩ = .noResults) ∧
    Outcome.failed "timeout" ≠ Outcome.noResults :=
  search_raise_vs_empty_distinct (fun _ => .error "timeout") (fun _ _ => .ok ())
    ⟨"P", "k", 1, "Specific"⟩ "timeout" (by decide)

/-- Claim C8: an entry with an empty keyword is recorded as the
empty-keyword skip outcome and contributes nothing to the run's
search-call trace — no `search` call is made for it. -/
theorem empty_keyword_skipped_no_search
    (search : String → Except String (List SearchResult))
    (write : String → ℚ → Except String Unit)
    (l1 l2 : List CatalogEntry) (e : CatalogEntry) (hk : e.keyword = "") :
    (run_aldi_scraper (l1 ++ e :: l2) search write).outcomes =
      l1.map (entryOutcome search write) ++
        Outcome.skippedEmptyKeyword :: l2.map (entryOutcome search write) ∧
    (run_aldi_scraper (l1 ++ e :: l2) search write).searched =
      l1.flatMap entrySearched ++ l2.flatMap entrySearched := by
  have he : entryOutcome search write e = .skippedEmptyKeyword := by
    unfold entryOutcome
    rw [if_pos hk]
  have hes : entrySearched e = [] := by
    unfold entrySearched
    rw [if_pos hk]
  rw [run_spec]
  constructor
  · show (l1 ++ e :: l2).map (entryOutcome search write) = _
    rw [List.map_append, List.map_cons, he]
  · show (l1 ++ e :: l2).flatMap entrySearched = _
    rw [List.flatMap_append, List.flatMap_cons, hes, List.nil_append]

theorem empty_keyword_skipped_no_search_witness :
    (run_aldi_scraper
        ([] ++ (⟨"Milk", "", 2000, "Home Brand"⟩ : CatalogEntry) :: [])
        (fun _ => .ok []) (fun _ _ => .ok ())).outcomes =
      ([] : List CatalogEntry).map
          (entryOutcome (fun _ => .ok []) (fun _ _ => .ok ())) ++
        Outcome.skippedEmptyKeyword ::
          ([] : List CatalogEntry).map
            (entryOutcome (fun _ => .ok []) (fun _ _ => .ok ())) ∧
    (run_aldi_scraper
        ([] ++ (⟨"Milk", "", 2000, "Home Brand"⟩ : CatalogEntry) :: [])
        (fun _ => .ok []) (fun _ _ => .ok ())).searched =
      ([] : List CatalogEntry).flatMap entrySearched ++
        ([] : List CatalogEntry).flatMap entrySearched :=
  empty_keyword_skipped_no_search (fun _ => .ok []) (fun _ _ => .ok ())
    [] [] ⟨"Milk", "", 2000, "Home Brand"⟩ rfl

/-- Claim C9 (counterexample): a tile with unparsable price text is
not filtered out by the producer — it is delivered to the matcher with
price `0.0`, and the matcher (which ignores price) can select it. -/
theorem degenerate_price_not_filtered :
    scrape_aldi_search false [⟨"Brooklea Yogurt 500", "N/A"⟩] =
      [⟨"Brooklea Yogurt 500", 0⟩] ∧
    find_best_aldi_match
      (scrape_aldi_search false [⟨"Brooklea Yogurt 500", "N/A"⟩])
      500 "Home Brand" = some ⟨"Brooklea Yogurt 500", 0⟩ := by
  decide

/-- Claim C9 (amended): the producer does not filter degenerate
prices: whenever the cleaned price text fails the digit check, the
candidate is passed through to the matcher with its price coerced to
`0.0`. -/
theorem degenerate_price_passed_through (title ptext : String)
    (h : priceDigitCheck (removeCommas (stripDollar ptext.data)) = false) :
    scrape_aldi_search false [⟨title, ptext⟩] = [⟨title, 0⟩] := by
  unfold scrape_aldi_search
  simp [parseTile, parsePrice, h]

theorem degenerate_price_passed_through_witness :
    scrape_aldi_search false [⟨"Choceur Bar", "N/A"⟩] = [⟨"Choceur Bar", 0⟩] :=
  degenerate_price_passed_through "Choceur Bar" "N/A" (by decide)

/-- If `update_price` returns an updated sheet, then every check it
performs succeeded: the `Product_Name` and `Last_Updated` columns
exist, the store name is valid, the store's price column exists, and
some data row matches the product name. -/
theorem update_price_ok_characterization (sheet : Sheet)
    (productName storeName newPrice nowIso : String) (sheet1 : Sheet)
    (hok : update_price sheet productName storeName newPrice nowIso = .ok sheet1) :
    ∃ pc lc cn prc i,
      headerIndex sheet.headers (pynorm "Product_Name") = some pc ∧
      headerIndex sheet.headers (pynorm "Last_Updated") = some lc ∧
      storePriceColumn (pynorm storeName) = some cn ∧
      headerIndex sheet.headers (pynorm cn) = some prc ∧
      sheet.rows.findIdx?
        (fun r => pynorm (cellAt r pc) == pynorm productName) = some i := by
  unfold update_price at hok
  by_cases hh : sheet.headers.isEmpty
  · rw [if_pos hh] at hok
    exact Except.noConfusion hok
  · rw [if_neg hh] at hok
    cases hpc : headerIndex sheet.headers (pynorm "Product_Name") with
    | none =>
      simp only [hpc] at hok
      exact Except.noConfusion hok
    | some pc =>
      simp only [hpc] at hok
      cases hlc : headerIndex sheet.headers (pynorm "Last_Updated") with
      | none =>
        simp only [hlc] at hok
        exact Except.noConfusion hok
      | some lc =>
        simp only [hlc] at hok
        cases hcn : storePriceColumn (pynorm storeName) with
        | none =>
          simp only [hcn] at hok
          exact Except.noConfusion hok
        | some cn =>
          simp only [hcn] at hok
          cases hprc : headerIndex sheet.headers (pynorm cn) with
          | none =>
            simp only [hprc] at hok
            exact Except.noConfusion hok
          | some prc =>
            simp only [hprc] at hok
            cases hfind : sheet.rows.findIdx?
                (fun r => pynorm (cellAt r pc) == pynorm productName) with
            | none =>
              simp only [hfind] at hok
              exact Except.noConfusion hok
            | some i =>
              exact ⟨pc, lc, cn, prc, i, rfl, rfl, rfl, hprc, hfind⟩

/-- Claim C10: `update_price` raises — and performs no write, leaving
the sheet unchanged — whenever the store name does not normalize to
woolworths/coles/aldi, or a required column (`Product_Name`,
`Last_Updated`, or the valid store's price column) is missing from the
header row, or no data row's normalized `Product_Name` cell equals the
normalized product name. -/
theorem update_price_error_paths_write_nothing (sheet : Sheet)
    (productName storeName newPrice nowIso : String)
    (h : storePriceColumn (pynorm storeName) = none ∨
      headerIndex sheet.headers (pynorm "Product_Name") = none ∨
      headerIndex sheet.headers (pynorm "Last_Updated") = none ∨
      (∃ colName, storePriceColumn (pynorm storeName) = some colName ∧
        headerIndex sheet.headers (pynorm colName) = none) ∨
      (∀ pc, productColOf sheet = some pc →
        sheet.rows.findIdx?
          (fun r => pynorm (cellAt r pc) == pynorm productName) = none)) :
    (∃ msg, update_price sheet productName storeName newPrice nowIso =
      .error msg) ∧
    ∀ sheet1, update_price sheet productName storeName newPrice nowIso ≠
      .ok sheet1 := by
  have hne : ∀ sheet1,
      update_price sheet productName storeName newPrice nowIso ≠ .ok sheet1 := by
    intro sheet1 hok
    obtain ⟨pc, lc, cn, prc, i, hpc, hlc, hcn, hprc, hfind⟩ :=
      update_price_ok_characterization sheet productName storeName newPrice
        nowIso sheet1 hok
    rcases h with hs | hp | hl | ⟨cn3, hcn3, hnone⟩ | hrow
    · rw [hs] at hcn
      exact Option.noConfusion hcn
    · rw [hp] at hpc
      exact Option.noConfusion hpc
    · rw [hl] at hlc
      exact Option.noConfusion hlc
    · rw [hcn3] at hcn
      have hcc : cn3 = cn := Option.some.inj hcn
      rw [hcc] at hnone
      rw [hnone] at hprc
      exact Option.noConfusion hprc
    · have hpcc : productColOf sheet = some pc := hpc
      have := hrow pc hpcc
      rw [this] at hfind
      exact Option.noConfusion hfind
  refine ⟨?_, hne⟩
  cases he : update_price sheet productName storeName newPrice nowIso with
  | error msg => exact ⟨msg, rfl⟩
  | ok sheet1 => exact absurd he (hne sheet1)

theorem update_price_error_paths_write_nothing_witness :
    (∃ msg, update_price
        ⟨["Product_Name", "Last_Updated", "Aldi_Price"], [["Milk", "2024", "3"]]⟩
        "Milk" "amazon" "4" "2025" = .error msg) ∧
    ∀ sheet1, update_price
        ⟨["Product_Name", "Last_Updated", "Aldi_Price"], [["Milk", "2024", "3"]]⟩
        "Milk" "amazon" "4" "2025" ≠ .ok sheet1 :=
  update_price_error_paths_write_nothing
    ⟨["Product_Name", "Last_Updated", "Aldi_Price"], [["Milk", "2024", "3"]]⟩
    "Milk" "amazon" "4" "2025" (Or.inl (by decide))
